import Mathlib

/-!
Verification of the ist-lunch repository against its natural-language
specification.

The repository sources under verification are the Next.js frontend, in
particular `frontend/app/api/menus/route.ts`, which transforms the raw dish
data files into the snapshot served to the UI.  The smart extraction router
described by the specification (`unified_scraper.py` in the project docs) is
not part of the repository sources; the corresponding definitions below are
modelled from the specification text and carry a doc comment saying so.

JavaScript strings are modelled as `List Char`; JavaScript falsiness of a
string is emptiness (together with `null`/`undefined`, modelled by `Option`),
and falsiness of a number is being zero (or `null`/`undefined`).  `NaN` and
non-integral numbers are not modelled: prices are integers.
-/

namespace IstLunch

/-- JavaScript strings, modelled as lists of characters. -/
abbrev Str := List Char

/-- Converts a Lean string literal to the `Str` model. -/
def str (s : String) : Str := s.toList

/-- Models JavaScript `String.prototype.toLowerCase` on one character, for the
characters that occur in the repository's string comparisons: ASCII letters and
the Swedish letters Å, Ä, Ö. -/
def jsLowerChar (c : Char) : Char :=
  if c = 'Å' then 'å'
  else if c = 'Ä' then 'ä'
  else if c = 'Ö' then 'ö'
  else c.toLower

/-- Models JavaScript `toLowerCase` on a whole string. -/
def jsLower (s : Str) : Str := s.map jsLowerChar

/-- Helper for `containsStr`: `strHasPrefix pat s` is true when `pat` is a
prefix of `s`. -/
def strHasPrefix : Str → Str → Bool
  | [], _ => true
  | _ :: _, [] => false
  | p :: ps, c :: cs => if p = c then strHasPrefix ps cs else false

/-- Models JavaScript `String.prototype.includes`: `containsStr hay pat` is
true when `pat` occurs contiguously inside `hay`. -/
def containsStr : Str → Str → Bool
  | [], pat => strHasPrefix pat []
  | c :: rest, pat => strHasPrefix pat (c :: rest) || containsStr rest pat

/-- Models the JavaScript idiom `s || d` for a possibly absent string `s`:
the default is taken when `s` is `null`/`undefined` or empty (falsy). -/
def orFalsy (s : Option Str) (d : Str) : Str :=
  match s with
  | none => d
  | some v => if v = [] then d else v

/-- Models the JavaScript idiom `p || null` for a possibly absent number `p`:
`0` (falsy) collapses to `null`, any other number is kept. -/
def jsOrNullInt (p : Option Int) : Option Int :=
  match p with
  | none => none
  | some v => if v = 0 then none else some v

/-- Models the JavaScript idiom `s?.toLowerCase() || ''` on a possibly absent
string. -/
def lowerOpt (s : Option Str) : Str :=
  match s with
  | none => []
  | some v => jsLower v

/-- A raw dish record as read from the JSON data files by the route handler
(`route.ts`).  Every field may be absent. -/
structure Dish where
  name : Option Str
  description : Option Str
  price : Option Int
  category : Option Str
  restaurant : Option Str
deriving DecidableEq

/-- Embeds `mapCategory` from `route.ts` lines 95-102: case-insensitive
substring rules checked in order meat, fish, vegetarian, vegan, with the
catch-all last. -/
def mapCategory (category : Str) : Str :=
  let cat := jsLower category
  if containsStr cat (str "kött") || containsStr cat (str "beef") ||
      containsStr cat (str "chicken") || containsStr cat (str "pork") then
    str "Kött"
  else if containsStr cat (str "fisk") || containsStr cat (str "fish") ||
      containsStr cat (str "seafood") then
    str "Fisk"
  else if containsStr cat (str "vegetarisk") || containsStr cat (str "vegetarian") then
    str "Vegetarisk"
  else if containsStr cat (str "vegansk") || containsStr cat (str "vegan") then
    str "Vegansk"
  else
    str "Övrigt"

/-- Embeds `generateHealthScore` from `route.ts` lines 104-124.  The source
also binds `name` to the lowered dish name but never uses it; that binding is
omitted here. -/
def generateHealthScore (dish : Dish) : Int :=
  let category := lowerOpt dish.category
  let description := lowerOpt dish.description
  let score : Int := 50
  let score := if containsStr category (str "fisk") then score + 20 else score
  let score := if containsStr category (str "vegetarisk") then score + 15 else score
  let score := if containsStr category (str "vegansk") then score + 10 else score
  let score := if containsStr description (str "grönsaker") ||
      containsStr description (str "sallad") then score + 10 else score
  let score := if containsStr description (str "fullkorn") ||
      containsStr description (str "quinoa") then score + 10 else score
  let score := if containsStr description (str "friterad") ||
      containsStr description (str "stekt") then score - 15 else score
  let score := if containsStr description (str "grädde") ||
      containsStr description (str "smör") then score - 10 else score
  max 0 (min 100 score)

/-- Embeds `generateDietTags` from `route.ts` lines 126-137. -/
def generateDietTags (dish : Dish) : List Str :=
  let description := lowerOpt dish.description
  let category := lowerOpt dish.category
  let tags : List Str := []
  let tags := if containsStr category (str "fisk") || containsStr category (str "kött") then
    tags ++ [str "high-protein"] else tags
  let tags := if containsStr description (str "laktosfri") then
    tags ++ [str "laktosfri"] else tags
  let tags := if containsStr description (str "glutenfri") then
    tags ++ [str "glutenfri"] else tags
  let tags := if !containsStr description (str "potatis") &&
      !containsStr description (str "pasta") then
    tags ++ [str "low-carb"] else tags
  tags

/-- Embeds `generateAllergens` from `route.ts` lines 139-149. -/
def generateAllergens (dish : Dish) : List Str :=
  let description := lowerOpt dish.description
  let allergens : List Str := []
  let allergens := if containsStr description (str "mjölk") ||
      containsStr description (str "ost") || containsStr description (str "grädde") then
    allergens ++ [str "laktos"] else allergens
  let allergens := if containsStr description (str "pasta") ||
      containsStr description (str "bröd") then
    allergens ++ [str "gluten"] else allergens
  let allergens := if containsStr description (str "ägg") then
    allergens ++ [str "ägg"] else allergens
  let allergens := if containsStr (lowerOpt dish.category) (str "fisk") then
    allergens ++ [str "fisk"] else allergens
  allergens

/-- The canonical menu item produced by the route handler (the object literal
at `route.ts` lines 57-65). -/
@[ext]
structure MenuItem where
  name : Str
  description : Str
  price : Option Int
  category : Str
  health_score : Int
  diet_tags : List Str
  allergens : List Str
deriving DecidableEq

/-- Embeds the dish-to-menu-item transform at `route.ts` lines 57-65. -/
def transformDish (dish : Dish) : MenuItem :=
  { name := orFalsy dish.name (str "Unknown Dish")
    description := orFalsy dish.description []
    price := jsOrNullInt dish.price
    category := mapCategory (orFalsy dish.category [])
    health_score := generateHealthScore dish
    diet_tags := generateDietTags dish
    allergens := generateAllergens dish }

/-- Embeds `dish.restaurant || 'Unknown'` (`route.ts` line 41). -/
def restaurantName (d : Dish) : Str := orFalsy d.restaurant (str "Unknown")

/-- Embeds the id slug at `route.ts` line 45:
`name.toLowerCase().replace(/[^a-z0-9]/g, '-')`. -/
def slugId (name : Str) : Str :=
  (jsLower name).map fun c =>
    if (('a' ≤ c ∧ c ≤ 'z') ∨ ('0' ≤ c ∧ c ≤ '9')) then c else '-'

/-- Embeds `getRestaurantAddress` from `route.ts` lines 151-162. -/
def getRestaurantAddress (name : Str) : Str :=
  if name = str "Lilla Rött" then str "Tulegatan 5, Sundbyberg"
  else if name = str "KRUBB Burgers" then str "Sturegatan 6, Sundbyberg"
  else if name = str "The Public" then str "Landsvägen 50, Sundbyberg"
  else if name = str "Restaurang S" then str "Järnvägsgatan 4, Sundbyberg"
  else if name = str "Delibruket" then str "Sundbybergs centrum"
  else if name = str "Klå Fann Thai" then str "Solna centrum"
  else str "Sundbyberg"

/-- Embeds `getRestaurantUrl` from `route.ts` lines 164-174. -/
def getRestaurantUrl (name : Str) : Str :=
  if name = str "Lilla Rött" then str "https://lillaro.nu"
  else if name = str "KRUBB Burgers" then str "https://krubbburgers.se"
  else if name = str "The Public" then str "https://sundbyberg.thepublic.se"
  else if name = str "Restaurang S" then str "http://www.restaurangs.nu"
  else if name = str "Delibruket" then str "https://delibruket.se"
  else str "#"

/-- Embeds `getWalkingTime` from `route.ts` lines 176-187. -/
def getWalkingTime (name : Str) : Int :=
  if name = str "Lilla Rött" then 3
  else if name = str "KRUBB Burgers" then 5
  else if name = str "The Public" then 8
  else if name = str "Restaurang S" then 6
  else if name = str "Delibruket" then 7
  else if name = str "Klå Fann Thai" then 12
  else 5

/-- A restaurant entry of the snapshot (the object literal at `route.ts`
lines 44-51). -/
structure Restaurant where
  id : Str
  name : Str
  address : Str
  url : Str
  menu_items : List MenuItem
  walking_time : Int
deriving DecidableEq

/-- Appends a menu item to the first entry with the given name.  Models
pushing onto `restaurantMap.get(restaurantName).menu_items`; the JavaScript
`Map` has unique keys, so the first matching entry is the only one. -/
def appendItem (rs : List Restaurant) (n : Str) (item : MenuItem) : List Restaurant :=
  match rs with
  | [] => []
  | r :: rest =>
    if r.name = n then { r with menu_items := r.menu_items ++ [item] } :: rest
    else r :: appendItem rest n item

/-- Models `restaurantMap.has(restaurantName)` (`route.ts` line 43). -/
def hasName (rs : List Restaurant) (n : Str) : Bool :=
  match rs with
  | [] => false
  | r :: rest => if r.name = n then true else hasName rest n

/-- Embeds the body of the `forEach` loop at `route.ts` lines 40-68: one dish
is grouped into the restaurant map, creating the entry on first sight. -/
def addDish (acc : List Restaurant) (dish : Dish) : List Restaurant :=
  let n := restaurantName dish
  let item := transformDish dish
  if hasName acc n then appendItem acc n item
  else acc ++ [{ id := slugId n
                 name := n
                 address := getRestaurantAddress n
                 url := getRestaurantUrl n
                 menu_items := [item]
                 walking_time := getWalkingTime n }]

/-- Embeds the whole grouping loop at `route.ts` lines 38-68; JavaScript `Map`
iteration order is insertion order, so the restaurant list is in order of
first appearance. -/
def buildRestaurants (dishes : List Dish) : List Restaurant :=
  dishes.foldl addDish []

/-- The parsed content of `data/combined_lunch_data.json` as used by `GET`
(`route.ts` lines 17-25).  Every field may be absent in the JSON.  The source
also copies `restaurant_counts` into the metadata, but the response object
never reads it, so it is omitted here. -/
structure CombinedData where
  dishes : Option (List Dish)
  generated_at : Option Str
  total_dishes : Option Int
  total_restaurants : Option Int
deriving DecidableEq

/-- Models `[...new Set(l)].length`-style deduplication (`route.ts` line 33):
keeps the first occurrence of each value, in order. -/
def dedupOpt (l : List (Option Str)) : List (Option Str) :=
  l.foldl (fun acc x => if x ∈ acc then acc else acc ++ [x]) []

/-- The JSON response produced by `GET` (`route.ts` lines 70-76 and 84-90). -/
structure SnapshotResponse where
  generated_at : Option Str
  date : Str
  total_dishes : Option Int
  total_restaurants : Option Int
  restaurants : List Restaurant
deriving DecidableEq

/-- Embeds the `GET` handler of `route.ts` (lines 6-92).  The two file reads
(with their JSON parses) are modelled by `Option` arguments: `none` means the
read or parse threw.  A failed combined read falls through to the flat dishes
file (the inner `catch`); if that read also throws, the outer `catch` returns
the empty snapshot.  `nowIso` models `new Date().toISOString()` and `today`
models its date part. -/
def GET (combined : Option CombinedData) (flat : Option (List Dish))
    (nowIso today : Str) : SnapshotResponse :=
  match combined with
  | some c =>
    let dishesData := c.dishes.getD []
    { generated_at := c.generated_at
      date := today
      total_dishes := c.total_dishes
      total_restaurants := c.total_restaurants
      restaurants := buildRestaurants dishesData }
  | none =>
    match flat with
    | some dishesData =>
      { generated_at := some nowIso
        date := today
        total_dishes := some dishesData.length
        total_restaurants := some (dedupOpt (dishesData.map Dish.restaurant)).length
        restaurants := buildRestaurants dishesData }
    | none =>
      { generated_at := some nowIso
        date := today
        total_dishes := some 0
        total_restaurants := some 0
        restaurants := [] }

/-! ### Specification-side vocabulary

The following definitions do not embed repository code; they spell out, in the
specification's words, the notions its claims quantify over (the lunch-price
band, the canonical category set, the dedup key and the per-restaurant item
multiset), so that the claims can be stated and compared against the embedded
code. -/

/-- The specification's plausible lunch-price band: null or 40-200 inclusive. -/
def priceOk (p : Option Int) : Bool :=
  match p with
  | none => true
  | some v => if 40 ≤ v ∧ v ≤ 200 then true else false

/-- The fixed closed category set of the specification, as produced by
`mapCategory`. -/
def canonicalCategories : List Str :=
  [str "Kött", str "Fisk", str "Vegetarisk", str "Vegansk", str "Övrigt"]

/-- Strips leading and trailing spaces. -/
def trimWs (s : Str) : Str :=
  ((s.dropWhile (· = ' ')).reverse.dropWhile (· = ' ')).reverse

/-- Collapses runs of consecutive spaces to a single space. -/
def squeezeWs : Str → Str
  | [] => []
  | [c] => [c]
  | a :: b :: rest =>
    if a = ' ' ∧ b = ' ' then squeezeWs (b :: rest) else a :: squeezeWs (b :: rest)

/-- Modelled from the spec: the case-insensitive, whitespace-collapsed name
used by the `(restaurantId, normalizedName, price)` dedup key.  No dedup code
exists in `route.ts`; this definition only states the claim's key. -/
def specNormalizeName (s : Str) : Str :=
  jsLower (trimWs (squeezeWs (s.map fun c => if c = '\t' ∨ c = '\n' then ' ' else c)))

/-- The dedup key of one produced menu item, per the specification. -/
def specDedupKey (m : MenuItem) : Str × Option Int :=
  (specNormalizeName m.name, m.price)

/-- The transforms of all raw dishes carrying a given restaurant name, in
encounter order; used to state what each restaurant's final list actually is. -/
def itemsFor (dishes : List Dish) (n : Str) : List MenuItem :=
  (dishes.filter fun d => decide (restaurantName d = n)).map transformDish

/-- Total number of menu items across a produced restaurant list. -/
def totalItems (rs : List Restaurant) : Nat :=
  (rs.map fun r => r.menu_items.length).sum

/-- Reads a produced menu item back as a dish record, to feed the route
handler's transform a second time (re-normalization). -/
def dishOfMenuItem (m : MenuItem) : Dish :=
  { name := some m.name
    description := some m.description
    price := m.price
    category := some m.category
    restaurant := none }

/-- Applies the route handler's item transform a second time to an
already-produced item list. -/
def renormalize (l : List MenuItem) : List MenuItem :=
  l.map fun m => transformDish (dishOfMenuItem m)

/-! ### Lemmas about the grouping loop of the route handler -/

/-- The menu items of the first restaurant entry carrying a given name. -/
def itemsOf : List Restaurant → Str → List MenuItem
  | [], _ => []
  | r :: rest, n => if r.name = n then r.menu_items else itemsOf rest n

/-- An entry name is found exactly when it occurs among the entry names. -/
theorem hasName_iff (rs : List Restaurant) (n : Str) :
    hasName rs n = true ↔ n ∈ rs.map fun r => r.name := by
  induction rs with
  | nil => simp [hasName]
  | cons r rest ih =>
    unfold hasName
    by_cases h : r.name = n
    · subst h
      simp
    · rw [if_neg h, ih]
      simp only [List.map_cons, List.mem_cons]
      constructor
      · exact fun hx => Or.inr hx
      · intro hx
        rcases hx with hx | hx
        · exact absurd hx.symm h
        · exact hx

/-- A name absent from the entries has no items. -/
theorem itemsOf_of_not_hasName (rs : List Restaurant) (n : Str)
    (h : hasName rs n = false) : itemsOf rs n = [] := by
  induction rs with
  | nil => rfl
  | cons r rest ih =>
    unfold hasName at h
    unfold itemsOf
    by_cases hr : r.name = n
    · rw [if_pos hr] at h; cases h
    · rw [if_neg hr] at h
      rw [if_neg hr]
      exact ih h

/-- Appending to the entry of a different name leaves a name's items alone. -/
theorem itemsOf_appendItem_ne (rs : List Restaurant) (nn : Str) (it : MenuItem)
    (n : Str) (hne : nn ≠ n) : itemsOf (appendItem rs nn it) n = itemsOf rs n := by
  induction rs with
  | nil => rfl
  | cons r rest ih =>
    unfold appendItem
    by_cases hr : r.name = nn
    · rw [if_pos hr]
      unfold itemsOf
      have : r.name ≠ n := by rw [hr]; exact hne
      rw [if_neg this, if_neg this]
    · rw [if_neg hr]
      unfold itemsOf
      by_cases hrn : r.name = n
      · rw [if_pos hrn, if_pos hrn]
      · rw [if_neg hrn, if_neg hrn]
        exact ih

/-- Appending to an existing entry extends exactly that name's items. -/
theorem itemsOf_appendItem_eq (rs : List Restaurant) (n : Str) (it : MenuItem)
    (h : hasName rs n = true) :
    itemsOf (appendItem rs n it) n = itemsOf rs n ++ [it] := by
  induction rs with
  | nil => cases h
  | cons r rest ih =>
    unfold appendItem
    by_cases hr : r.name = n
    · rw [if_pos hr]
      unfold itemsOf
      rw [if_pos hr, if_pos hr]
    · rw [if_neg hr]
      unfold itemsOf
      rw [if_neg hr, if_neg hr]
      unfold hasName at h
      rw [if_neg hr] at h
      exact ih h

/-- Splitting a lookup across concatenation. -/
theorem itemsOf_append (rs1 rs2 : List Restaurant) (n : Str) :
    itemsOf (rs1 ++ rs2) n =
      if hasName rs1 n then itemsOf rs1 n else itemsOf rs2 n := by
  induction rs1 with
  | nil => simp [itemsOf, hasName]
  | cons r rest ih =>
    rw [List.cons_append]
    simp only [itemsOf, hasName]
    by_cases hr : r.name = n
    · simp [hr]
    · simp only [if_neg hr]
      exact ih

/-- Grouping one dish extends exactly its restaurant's items by its transform. -/
theorem itemsOf_addDish (acc : List Restaurant) (d : Dish) (n : Str) :
    itemsOf (addDish acc d) n =
      itemsOf acc n ++
        (if restaurantName d = n then [transformDish d] else []) := by
  unfold addDish
  dsimp only
  by_cases hh : hasName acc (restaurantName d) = true
  · rw [if_pos hh]
    by_cases heq : restaurantName d = n
    · rw [if_pos heq]
      rw [heq] at hh
      rw [← heq]
      exact itemsOf_appendItem_eq acc (restaurantName d) (transformDish d)
        (by rw [heq]; exact hh)
    · rw [if_neg heq, List.append_nil]
      exact itemsOf_appendItem_ne acc (restaurantName d) (transformDish d) n heq
  · have hh2 : hasName acc (restaurantName d) = false := by
      revert hh
      cases hasName acc (restaurantName d) <;> simp
    rw [if_neg hh]
    rw [itemsOf_append]
    by_cases heq : restaurantName d = n
    · have hacc : hasName acc n = false := by rw [← heq]; exact hh2
      rw [hacc]
      simp only [Bool.false_eq_true, if_false]
      rw [itemsOf_of_not_hasName acc n hacc, if_pos heq]
      simp only [itemsOf]
      rw [if_pos heq]
      simp
    · rw [if_neg heq, List.append_nil]
      by_cases hn : hasName acc n = true
      · rw [if_pos hn]
      · have hn2 : hasName acc n = false := by
          revert hn
          cases hasName acc n <;> simp
        rw [hn2]
        simp only [Bool.false_eq_true, if_false]
        rw [itemsOf_of_not_hasName acc n hn2]
        simp only [itemsOf]
        rw [if_neg heq]

/-- Running the whole grouping loop accumulates, name by name, the transforms
of the dishes carrying that name, in encounter order. -/
theorem itemsOf_foldl (ds : List Dish) :
    ∀ (acc : List Restaurant) (n : Str),
      itemsOf (ds.foldl addDish acc) n = itemsOf acc n ++ itemsFor ds n := by
  induction ds with
  | nil => intro acc n; simp [itemsFor]
  | cons d rest ih =>
    intro acc n
    rw [List.foldl_cons, ih]
    rw [itemsOf_addDish]
    by_cases h : restaurantName d = n
    · simp [itemsFor, List.filter_cons, h]
    · simp [itemsFor, List.filter_cons, h]

/-- Grouping one dish preserves entry names when the name exists, and appends
the new name otherwise. -/
theorem addDish_names (acc : List Restaurant) (d : Dish) :
    ((addDish acc d).map fun r => r.name) =
      if hasName acc (restaurantName d) then acc.map fun r => r.name
      else (acc.map fun r => r.name) ++ [restaurantName d] := by
  unfold addDish
  dsimp only
  by_cases hh : hasName acc (restaurantName d) = true
  · rw [if_pos hh, if_pos hh]
    induction acc with
    | nil => rfl
    | cons r rest ih =>
      unfold appendItem
      by_cases hr : r.name = restaurantName d
      · rw [if_pos hr]; rfl
      · rw [if_neg hr]
        simp only [List.map_cons, List.cons.injEq, true_and]
        unfold hasName at hh
        rw [if_neg hr] at hh
        exact ih hh
  · rw [if_neg hh, if_neg hh]
    simp

/-- Every entry of the grouped output keeps an id that is the slug of its
name. -/
theorem ids_foldl (ds : List Dish) :
    ∀ (acc : List Restaurant), (∀ r ∈ acc, r.id = slugId r.name) →
      ∀ r ∈ ds.foldl addDish acc, r.id = slugId r.name := by
  induction ds with
  | nil => intro acc h; simpa using h
  | cons d rest ih =>
    intro acc h
    rw [List.foldl_cons]
    apply ih
    intro r hr
    unfold addDish at hr
    dsimp only at hr
    by_cases hh : hasName acc (restaurantName d) = true
    · rw [if_pos hh] at hr
      clear ih hh
      induction acc with
      | nil => cases hr
      | cons r0 rest0 ih0 =>
        unfold appendItem at hr
        by_cases hr0 : r0.name = restaurantName d
        · rw [if_pos hr0] at hr
          rcases List.mem_cons.mp hr with heq | hmem
          · rw [heq]
            exact h r0 (List.mem_cons_self r0 rest0)
          · exact h r (List.mem_cons_of_mem r0 hmem)
        · rw [if_neg hr0] at hr
          rcases List.mem_cons.mp hr with heq | hmem
          · rw [heq]
            exact h r0 (List.mem_cons_self r0 rest0)
          · exact ih0 (fun x hx => h x (List.mem_cons_of_mem r0 hx)) hmem
    · rw [if_neg hh] at hr
      rcases List.mem_append.mp hr with hmem | hmem
      · exact h r hmem
      · have : r = { id := slugId (restaurantName d), name := restaurantName d
                     address := getRestaurantAddress (restaurantName d)
                     url := getRestaurantUrl (restaurantName d)
                     menu_items := [transformDish d]
                     walking_time := getWalkingTime (restaurantName d) } := by
          simpa using hmem
        rw [this]

/-- The grouped output never carries two entries with the same name. -/
theorem names_nodup_foldl (ds : List Dish) :
    ∀ (acc : List Restaurant), ((acc.map fun r => r.name)).Nodup →
      (((ds.foldl addDish acc).map fun r => r.name)).Nodup := by
  induction ds with
  | nil => intro acc h; simpa using h
  | cons d rest ih =>
    intro acc h
    rw [List.foldl_cons]
    apply ih
    rw [addDish_names]
    by_cases hh : hasName acc (restaurantName d) = true
    · rw [if_pos hh]; exact h
    · have hh2 : ¬ restaurantName d ∈ (acc.map fun r => r.name) := by
        intro hmem
        exact hh ((hasName_iff acc (restaurantName d)).mpr hmem)
      rw [if_neg hh]
      simp only [List.nodup_append, List.nodup_singleton, true_and]
      refine ⟨h, ?_⟩
      intro a ha hb
      rcases List.mem_singleton.mp hb with rfl
      exact hh2 ha

/-- The produced restaurant names are pairwise distinct. -/
theorem buildRestaurants_names_nodup (ds : List Dish) :
    (((buildRestaurants ds).map fun r => r.name)).Nodup :=
  names_nodup_foldl ds [] (by simp)

/-- With duplicate-free names, the first entry carrying a member's name is
that member itself. -/
theorem itemsOf_of_mem (rs : List Restaurant)
    (hnd : ((rs.map fun r => r.name)).Nodup) (r : Restaurant) (hm : r ∈ rs) :
    itemsOf rs r.name = r.menu_items := by
  induction rs with
  | nil => cases hm
  | cons r0 rest ih =>
    rcases List.mem_cons.mp hm with heq | hmem
    · rw [heq]
      unfold itemsOf
      rw [if_pos rfl]
    · unfold itemsOf
      by_cases h0 : r0.name = r.name
      · exfalso
        simp only [List.map_cons, List.nodup_cons] at hnd
        exact hnd.1 (h0 ▸ List.mem_map_of_mem (fun x => x.name) hmem)
      · rw [if_neg h0]
        simp only [List.map_cons, List.nodup_cons] at hnd
        exact ih hnd.2 hmem

/-- Each produced restaurant's final list is exactly the transforms of the raw
dishes carrying its name, in encounter order. -/
theorem buildRestaurants_menu_items (ds : List Dish) (r : Restaurant)
    (hm : r ∈ buildRestaurants ds) : r.menu_items = itemsFor ds r.name := by
  have h1 := itemsOf_of_mem (buildRestaurants ds) (buildRestaurants_names_nodup ds) r hm
  have h2 := itemsOf_foldl ds [] r.name
  unfold buildRestaurants at h1 h2
  rw [h1] at h2
  simpa [itemsOf] using h2

/-- Grouping one dish adds exactly one item overall. -/
theorem totalItems_addDish (acc : List Restaurant) (d : Dish) :
    totalItems (addDish acc d) = totalItems acc + 1 := by
  unfold addDish
  dsimp only
  by_cases hh : hasName acc (restaurantName d) = true
  · rw [if_pos hh]
    induction acc with
    | nil => cases hh
    | cons r rest ih =>
      unfold appendItem
      by_cases hr : r.name = restaurantName d
      · rw [if_pos hr]
        simp [totalItems]
        omega
      · rw [if_neg hr]
        unfold hasName at hh
        rw [if_neg hr] at hh
        simp only [totalItems, List.map_cons, List.sum_cons] at ih ⊢
        rw [ih hh]
        omega
  · rw [if_neg hh]
    simp [totalItems]

/-- The grouped output carries one item per raw dish: nothing is dropped and
nothing is merged. -/
theorem totalItems_foldl (ds : List Dish) :
    ∀ (acc : List Restaurant),
      totalItems (ds.foldl addDish acc) = totalItems acc + ds.length := by
  induction ds with
  | nil => intro acc; simp
  | cons d rest ih =>
    intro acc
    rw [List.foldl_cons, ih, totalItems_addDish]
    simp only [List.length_cons]
    omega

/-! ### The extraction router

Modelled from the spec: the smart extraction router (`unified_scraper.py` in
the project documentation) is not part of the repository sources; the
definitions below follow section 4.3 of the specification.  Concurrency is
sequentialized: a run processes the restaurant list in order, threading the
Vision-budget counter through; the spec guards that counter with a mutex, so
the set of per-restaurant decisions is the same. -/

/-- Modelled from the spec: a strategy's raw output item (section 3,
`RawMenuItem`). -/
structure RawMenuItem where
  name : String
  description : String
  priceText : String
  categoryText : String
deriving DecidableEq

/-- Modelled from the spec: the per-restaurant failure reasons of the router
taxonomy that the routing decision itself produces (section 4.3). -/
inductive FailReason where
  | noItems
  | budgetExhausted
deriving DecidableEq

/-- Modelled from the spec: per-restaurant routing configuration — restaurants
forced to Vision, the known-problem-site set, the escalation threshold
(default 3) and the Vision budget (default 6). -/
structure RouterConfig where
  forcedVision : List String
  knownProblem : List String
  minItems : Nat
  maxVision : Nat
deriving DecidableEq

/-- Modelled from the spec: a restaurant skips Traditional entirely when it is
forced to Vision or is a known problem site (section 4.3). -/
def needsVisionDirectly (cfg : RouterConfig) (r : String) : Bool :=
  decide (r ∈ cfg.forcedVision) || decide (r ∈ cfg.knownProblem)

/-- Modelled from the spec: the trimmed per-restaurant record of one run —
which strategies were invoked, the final items and the failure reason if any. -/
structure RestaurantResult where
  id : String
  usedTraditional : Bool
  usedVision : Bool
  items : List RawMenuItem
  failure : Option FailReason
deriving DecidableEq

/-- Modelled from the spec: the routing decision for one restaurant
(section 4.3).  `trad` and `vis` are the two opaque strategies (a strategy
error is treated identically to zero items, section 4.2); `used` is the number
of Vision invocations already spent this run.  Traditional succeeds iff it
returns at least `minItems` items; otherwise the router escalates to Vision if
budget remains, and marks the restaurant failed with the budget-exhausted
reason if not. -/
def routeOne (cfg : RouterConfig) (trad vis : String → List RawMenuItem)
    (used : Nat) (r : String) : RestaurantResult × Nat :=
  if needsVisionDirectly cfg r then
    if used < cfg.maxVision then
      let items := vis r
      ({ id := r, usedTraditional := false, usedVision := true, items := items
         failure := if items.isEmpty then some .noItems else none }, used + 1)
    else
      ({ id := r, usedTraditional := false, usedVision := false, items := []
         failure := some .budgetExhausted }, used)
  else
    let titems := trad r
    if cfg.minItems ≤ titems.length then
      ({ id := r, usedTraditional := true, usedVision := false, items := titems
         failure := none }, used)
    else if used < cfg.maxVision then
      let items := vis r
      ({ id := r, usedTraditional := true, usedVision := true, items := items
         failure := if items.isEmpty then some .noItems else none }, used + 1)
    else
      ({ id := r, usedTraditional := true, usedVision := false, items := []
         failure := some .budgetExhausted }, used)

/-- One step of a run: route the next restaurant and append its record. -/
def routeStep (cfg : RouterConfig) (trad vis : String → List RawMenuItem)
    (acc : List RestaurantResult × Nat) (r : String) : List RestaurantResult × Nat :=
  let out := routeOne cfg trad vis acc.2 r
  (acc.1 ++ [out.1], out.2)

/-- Modelled from the spec: one complete run of the router over a restaurant
list, starting with an unspent Vision budget.  Returns every restaurant's
record together with the number of Vision invocations spent. -/
def runRouter (cfg : RouterConfig) (trad vis : String → List RawMenuItem)
    (rs : List String) : List RestaurantResult × Nat :=
  rs.foldl (routeStep cfg trad vis) ([], 0)

/-- Modelled from the spec: a restaurant requires Vision in a run when it is
forced/known-problem or Traditional falls below the escalation threshold. -/
def requiresVision (cfg : RouterConfig) (trad : String → List RawMenuItem)
    (r : String) : Bool :=
  needsVisionDirectly cfg r || decide ((trad r).length < cfg.minItems)

/-- Number of Vision invocations recorded in a run's results. -/
def countVision (l : List RestaurantResult) : Nat :=
  (l.filter fun res => res.usedVision).length

/-! ### Concrete inputs used by witnesses and counterexamples -/

/-- A typical in-band raw dish. -/
def dLax : Dish :=
  { name := some (str "Lax"), description := some [], price := some 100
    category := some (str "Fisk"), restaurant := some (str "X") }

/-- A raw dish whose price 350 lies outside the 40-200 band. -/
def d350 : Dish :=
  { name := some (str "Fisksoppa"), description := some [], price := some 350
    category := some (str "Fisk"), restaurant := some (str "X") }

/-- A raw dish with a missing price. -/
def dNoPrice : Dish :=
  { name := some (str "Soppa"), description := some [], price := none
    category := some (str "Fisk"), restaurant := some (str "X") }

/-- A raw dish with a zero price: falsy in JavaScript, so it is coerced to
null by the handler. -/
def dZero : Dish :=
  { name := some (str "Soppa"), description := some [], price := some 0
    category := some (str "Fisk"), restaurant := some (str "X") }

/-- A raw dish whose restaurant name is "A B". -/
def dRestA : Dish :=
  { name := some (str "Soppa"), description := some [], price := some 95
    category := some (str "Fisk"), restaurant := some (str "A B") }

/-- A raw dish whose restaurant name is "A.B": a different name than "A B",
but the same id slug. -/
def dRestB : Dish :=
  { name := some (str "Soppa"), description := some [], price := some 95
    category := some (str "Fisk"), restaurant := some (str "A.B") }

/-- An already-produced item whose stored derived fields are inconsistent with
its other fields, although its price is in band and its category canonical. -/
def mStale : MenuItem :=
  { name := str "Lax", description := [], price := some 100, category := str "Kött"
    health_score := 0, diet_tags := [], allergens := [] }

/-- The item the route handler produces for `dLax`; its derived fields are
consistent, so re-transforming leaves it unchanged. -/
def mFixed : MenuItem :=
  { name := str "Lax", description := [], price := some 100, category := str "Fisk"
    health_score := 70, diet_tags := [str "high-protein", str "low-carb"]
    allergens := [str "fisk"] }

/-- A raw strategy item for router runs. -/
def itemW : RawMenuItem :=
  { name := "Lax", description := "", priceText := "100", categoryText := "Fisk" }

/-- A router configuration with the spec defaults (threshold 3, budget 6). -/
def cfgDefault : RouterConfig :=
  { forcedVision := [], knownProblem := [], minItems := 3, maxVision := 6 }

/-- The budget-exhaustion scenario configuration of the spec: budget 1. -/
def cfgBudget1 : RouterConfig :=
  { forcedVision := [], knownProblem := [], minItems := 3, maxVision := 1 }

/-! ### Router lemmas -/

/-- Every branch of the routing decision records the restaurant's own id. -/
theorem routeOne_id (cfg : RouterConfig) (trad vis : String → List RawMenuItem)
    (used : Nat) (r : String) : (routeOne cfg trad vis used r).1.id = r := by
  unfold routeOne
  dsimp only
  split
  · split <;> rfl
  · split
    · rfl
    · split <;> rfl

/-- The Vision counter advances exactly when the decision invoked Vision. -/
theorem routeOne_counter (cfg : RouterConfig) (trad vis : String → List RawMenuItem)
    (used : Nat) (r : String) :
    (routeOne cfg trad vis used r).2 =
      if (routeOne cfg trad vis used r).1.usedVision then used + 1 else used := by
  unfold routeOne
  dsimp only
  split
  · split <;> rfl
  · split
    · rfl
    · split <;> rfl

/-- The routing decision never pushes the counter past the budget. -/
theorem routeOne_counter_le (cfg : RouterConfig) (trad vis : String → List RawMenuItem)
    (used : Nat) (r : String) (h : used ≤ cfg.maxVision) :
    (routeOne cfg trad vis used r).2 ≤ cfg.maxVision := by
  unfold routeOne
  dsimp only
  split
  · split <;> dsimp only <;> omega
  · split
    · dsimp only; omega
    · split <;> dsimp only <;> omega

/-- A restaurant that is neither forced nor known-problem and whose
Traditional result meets the threshold is routed without Vision. -/
theorem routeOne_noVision (cfg : RouterConfig) (trad vis : String → List RawMenuItem)
    (used : Nat) (r : String) (h1 : needsVisionDirectly cfg r = false)
    (h2 : cfg.minItems ≤ (trad r).length) :
    (routeOne cfg trad vis used r).1.usedVision = false := by
  have hc : ¬ (needsVisionDirectly cfg r = true) := by simp [h1]
  unfold routeOne
  dsimp only
  rw [if_neg hc, if_pos h2]

/-- A restaurant that required Vision but was routed without it carries the
budget-exhausted failure reason. -/
theorem routeOne_budget (cfg : RouterConfig) (trad vis : String → List RawMenuItem)
    (used : Nat) (r : String) (hreq : requiresVision cfg trad r = true)
    (hnv : (routeOne cfg trad vis used r).1.usedVision = false) :
    (routeOne cfg trad vis used r).1.failure = some FailReason.budgetExhausted := by
  unfold requiresVision at hreq
  unfold routeOne at hnv ⊢
  dsimp only at hnv ⊢
  by_cases hd : needsVisionDirectly cfg r = true
  · rw [if_pos hd] at hnv ⊢
    by_cases hu : used < cfg.maxVision
    · rw [if_pos hu] at hnv
      simp at hnv
    · rw [if_neg hu]
  · have hd2 : needsVisionDirectly cfg r = false := by
      revert hd
      cases needsVisionDirectly cfg r <;> simp
    rw [if_neg hd] at hnv ⊢
    rw [hd2] at hreq
    simp only [Bool.false_or, decide_eq_true_eq] at hreq
    have hlt : ¬ cfg.minItems ≤ (trad r).length := by omega
    rw [if_neg hlt] at hnv ⊢
    by_cases hu : used < cfg.maxVision
    · rw [if_pos hu] at hnv
      simp at hnv
    · rw [if_neg hu]

/-- Every result of a partial run comes from the accumulator or from routing
one of the listed restaurants at some counter value. -/
theorem mem_routeFold (cfg : RouterConfig) (trad vis : String → List RawMenuItem) :
    ∀ (rs : List String) (acc : List RestaurantResult) (u : Nat)
      (res : RestaurantResult),
      res ∈ (rs.foldl (routeStep cfg trad vis) (acc, u)).1 →
      res ∈ acc ∨ ∃ u2 r2, r2 ∈ rs ∧ res = (routeOne cfg trad vis u2 r2).1 := by
  intro rs
  induction rs with
  | nil =>
    intro acc u res h
    simp only [List.foldl_nil] at h
    exact Or.inl h
  | cons r rest ih =>
    intro acc u res h
    rw [List.foldl_cons] at h
    simp only [routeStep] at h
    rcases ih _ _ res h with hacc | ⟨u2, r2, hr2, heq⟩
    · rcases List.mem_append.mp hacc with h3 | h3
      · exact Or.inl h3
      · refine Or.inr ⟨u, r, List.mem_cons_self r rest, ?_⟩
        simpa using h3
    · exact Or.inr ⟨u2, r2, List.mem_cons_of_mem r hr2, heq⟩

/-- A partial run appends exactly one record per restaurant, in order, with
the restaurant's id. -/
theorem routeFold_ids (cfg : RouterConfig) (trad vis : String → List RawMenuItem) :
    ∀ (rs : List String) (acc : List RestaurantResult) (u : Nat),
      ((rs.foldl (routeStep cfg trad vis) (acc, u)).1.map fun res => res.id) =
        (acc.map fun res => res.id) ++ rs := by
  intro rs
  induction rs with
  | nil => intro acc u; simp
  | cons r rest ih =>
    intro acc u
    rw [List.foldl_cons]
    simp only [routeStep]
    rw [ih]
    simp [routeOne_id]

/-- Vision-count bookkeeping: the run's recorded Vision invocations match the
advance of the budget counter. -/
theorem routeFold_counter (cfg : RouterConfig) (trad vis : String → List RawMenuItem) :
    ∀ (rs : List String) (acc : List RestaurantResult) (u : Nat),
      countVision (rs.foldl (routeStep cfg trad vis) (acc, u)).1 + u =
        countVision acc + (rs.foldl (routeStep cfg trad vis) (acc, u)).2 := by
  intro rs
  induction rs with
  | nil => intro acc u; simp
  | cons r rest ih =>
    intro acc u
    rw [List.foldl_cons]
    simp only [routeStep]
    have hstep := ih (acc ++ [(routeOne cfg trad vis u r).1]) (routeOne cfg trad vis u r).2
    have hcnt : countVision (acc ++ [(routeOne cfg trad vis u r).1]) =
        countVision acc +
          (if (routeOne cfg trad vis u r).1.usedVision then 1 else 0) := by
      unfold countVision
      rw [List.filter_append, List.length_append]
      congr 1
      by_cases hv : (routeOne cfg trad vis u r).1.usedVision
      · simp [hv]
      · simp [hv]
    have hctr := routeOne_counter cfg trad vis u r
    by_cases hv : (routeOne cfg trad vis u r).1.usedVision = true
    · rw [hv] at hcnt hctr
      simp only [if_true] at hcnt hctr
      omega
    · have hv2 : (routeOne cfg trad vis u r).1.usedVision = false := by
        revert hv
        cases (routeOne cfg trad vis u r).1.usedVision <;> simp
      rw [hv2] at hcnt hctr
      simp only [Bool.false_eq_true, if_false] at hcnt hctr
      omega

/-- A partial run started within budget ends within budget. -/
theorem routeFold_le (cfg : RouterConfig) (trad vis : String → List RawMenuItem) :
    ∀ (rs : List String) (acc : List RestaurantResult) (u : Nat),
      u ≤ cfg.maxVision →
      (rs.foldl (routeStep cfg trad vis) (acc, u)).2 ≤ cfg.maxVision := by
  intro rs
  induction rs with
  | nil => intro acc u h; simpa using h
  | cons r rest ih =>
    intro acc u h
    rw [List.foldl_cons]
    simp only [routeStep]
    exact ih _ _ (routeOne_counter_le cfg trad vis u r h)

/-! ### Claims C1 and C2 (router) -/

/-- C1: for every restaurant that is not forced to the Vision strategy and not
in the known-problem set, if the Traditional strategy returns at least 3 items
(the escalation threshold) in a run, the Vision strategy is never invoked for
that restaurant in that run. -/
theorem c1_traditional_success_no_vision (cfg : RouterConfig)
    (trad vis : String → List RawMenuItem) (rs : List String)
    (res : RestaurantResult) (hmem : res ∈ (runRouter cfg trad vis rs).1)
    (hforced : res.id ∉ cfg.forcedVision) (hknown : res.id ∉ cfg.knownProblem)
    (hmin : cfg.minItems = 3) (hlen : 3 ≤ (trad res.id).length) :
    res.usedVision = false := by
  unfold runRouter at hmem
  rcases mem_routeFold cfg trad vis rs [] 0 res hmem with habs | ⟨u2, r2, _, heq⟩
  · cases habs
  · have hid : res.id = r2 := by rw [heq]; exact routeOne_id cfg trad vis u2 r2
    rw [heq]
    apply routeOne_noVision
    · rw [hid] at hforced hknown
      simp [needsVisionDirectly, hforced, hknown]
    · rw [hid] at hlen
      omega

/-- Witness for C1: with default configuration and a Traditional strategy
returning 3 items, the single restaurant's run record shows no Vision use. -/
theorem c1_traditional_success_no_vision_witness :
    ({ id := "a", usedTraditional := true, usedVision := false
       items := List.replicate 3 itemW, failure := none } : RestaurantResult).usedVision
      = false :=
  c1_traditional_success_no_vision cfgDefault (fun _ => List.replicate 3 itemW)
    (fun _ => []) ["a"] _ (by decide) (by decide) (by decide) rfl (by decide)

/-- C2: in every run the number of Vision invocations never exceeds the
configured maxVision budget; every restaurant gets a record (none is silently
skipped); and every restaurant that required Vision but was not granted it is
recorded as failed with the budget-exhausted reason. -/
theorem c2_budget_respected (cfg : RouterConfig)
    (trad vis : String → List RawMenuItem) (rs : List String) :
    countVision (runRouter cfg trad vis rs).1 ≤ cfg.maxVision ∧
    ((runRouter cfg trad vis rs).1.map fun res => res.id) = rs ∧
    ∀ res ∈ (runRouter cfg trad vis rs).1,
      requiresVision cfg trad res.id = true → res.usedVision = false →
      res.failure = some FailReason.budgetExhausted := by
  refine ⟨?_, ?_, ?_⟩
  · have hctr := routeFold_counter cfg trad vis rs [] 0
    have hle := routeFold_le cfg trad vis rs [] 0 (Nat.zero_le _)
    unfold runRouter
    simp only [countVision, List.filter_nil, List.length_nil] at hctr ⊢
    omega
  · have := routeFold_ids cfg trad vis rs [] 0
    simpa [runRouter] using this
  · intro res hmem hreq hnv
    unfold runRouter at hmem
    rcases mem_routeFold cfg trad vis rs [] 0 res hmem with habs | ⟨u2, r2, _, heq⟩
    · cases habs
    · have hid : res.id = r2 := by rw [heq]; exact routeOne_id cfg trad vis u2 r2
      rw [hid] at hreq
      rw [heq] at hnv ⊢
      exact routeOne_budget cfg trad vis u2 r2 hreq hnv

/-- Witness for C2: the spec's budget-exhaustion scenario, with budget 1 and
two restaurants both requiring escalation — the second record carries the
budget-exhausted reason, and the Vision count stays within the budget. -/
theorem c2_budget_respected_witness :
    countVision (runRouter cfgBudget1 (fun _ => [itemW])
        (fun _ => List.replicate 8 itemW) ["a", "b"]).1 ≤ 1 ∧
    ({ id := "b", usedTraditional := true, usedVision := false, items := []
       failure := some FailReason.budgetExhausted } : RestaurantResult).failure
      = some FailReason.budgetExhausted := by
  refine ⟨?_, ?_⟩
  · exact (c2_budget_respected cfgBudget1 (fun _ => [itemW])
      (fun _ => List.replicate 8 itemW) ["a", "b"]).1
  · exact (c2_budget_respected cfgBudget1 (fun _ => [itemW])
      (fun _ => List.replicate 8 itemW) ["a", "b"]).2.2 _ (by decide) (by decide)
      (by decide)

/-! ### Claim C3 (price band) -/

/-- Counterexample to C3: the raw dish `d350` with price 350 — outside the
40-200 band — is produced by the handler with its price kept at 350, not
coerced to null, so the band invariant fails on the code. -/
theorem c3_counterexample :
    (transformDish d350).price = some 350 ∧
    priceOk (transformDish d350).price = false ∧
    ((buildRestaurants [d350]).map fun r => r.menu_items.map fun m => m.price) =
      [[some 350]] := by
  decide

/-- C3 as amended: the handler passes every nonzero raw price through
unchanged (even out-of-band values such as 350), coerces only missing or zero
prices to null, and never drops an item (the total produced item count equals
the raw dish count). -/
theorem c3_price_passthrough (d : Dish) (ds : List Dish) :
    (d.price = none → (transformDish d).price = none) ∧
    (d.price = some 0 → (transformDish d).price = none) ∧
    (∀ v : Int, d.price = some v → v ≠ 0 → (transformDish d).price = some v) ∧
    totalItems (buildRestaurants ds) = ds.length := by
  refine ⟨?_, ?_, ?_, ?_⟩
  · intro h
    simp [transformDish, jsOrNullInt, h]
  · intro h
    simp [transformDish, jsOrNullInt, h]
  · intro v hv hv0
    simp [transformDish, jsOrNullInt, hv, hv0]
  · have h := totalItems_foldl ds []
    simpa [buildRestaurants, totalItems] using h

/-- Witness for the amended C3 at concrete dishes: a missing price and a zero
price both become null, the out-of-band price 350 passes through, and the item
is retained. -/
theorem c3_price_passthrough_witness :
    (transformDish dNoPrice).price = none ∧
    (transformDish dZero).price = none ∧
    (transformDish d350).price = some 350 ∧
    totalItems (buildRestaurants [d350]) = 1 :=
  ⟨(c3_price_passthrough dNoPrice []).1 rfl,
   (c3_price_passthrough dZero []).2.1 rfl,
   (c3_price_passthrough d350 [d350]).2.2.1 350 rfl (by decide),
   (c3_price_passthrough d350 [d350]).2.2.2⟩

/-! ### Claim C4 (dedup) -/

/-- Counterexample to C4: feeding the same raw dish twice produces one
restaurant whose two items share the `(normalizedName, price)` key — nothing
is deduplicated. -/
theorem c4_counterexample :
    ((buildRestaurants [dLax, dLax]).map fun r => r.menu_items.map specDedupKey) =
      [[(str "lax", some 100), (str "lax", some 100)]] := by
  decide

/-- C4 as amended: the handler performs no deduplication — each restaurant's
final list is exactly the transforms of all raw dishes carrying its name, in
encounter order, with colliding keys retained as duplicates. -/
theorem c4_no_dedup (ds : List Dish) (r : Restaurant)
    (hm : r ∈ buildRestaurants ds) : r.menu_items = itemsFor ds r.name :=
  buildRestaurants_menu_items ds r hm

/-- Witness for the amended C4 at a concrete duplicated input. -/
theorem c4_no_dedup_witness :
    ({ id := str "x", name := str "X", address := str "Sundbyberg", url := str "#"
       menu_items := [transformDish dLax, transformDish dLax], walking_time := 5 } :
      Restaurant).menu_items = itemsFor [dLax, dLax] (str "X") :=
  c4_no_dedup [dLax, dLax] _ (by decide)

/-! ### Claim C5 (item cap) -/

/-- Counterexample to C5: eleven raw dishes for one restaurant yield a final
list of eleven items — more than the claimed maximum of 10. -/
theorem c5_counterexample :
    ((buildRestaurants (List.replicate 11 dLax)).map fun r => r.menu_items.length) =
      [11] ∧ 10 < 11 := by
  decide

/-- C5 as amended: no truncation is applied — a restaurant's final list length
equals the number of raw dishes carrying its name and can exceed 10. -/
theorem c5_no_cap (ds : List Dish) (r : Restaurant)
    (hm : r ∈ buildRestaurants ds) :
    r.menu_items.length =
      (ds.filter fun d => decide (restaurantName d = r.name)).length := by
  rw [buildRestaurants_menu_items ds r hm]
  simp [itemsFor]

/-- Witness for the amended C5 at a concrete input of eleven dishes. -/
theorem c5_no_cap_witness :
    ({ id := str "x", name := str "X", address := str "Sundbyberg", url := str "#"
       menu_items := List.replicate 11 (transformDish dLax), walking_time := 5 } :
      Restaurant).menu_items.length =
      ((List.replicate 11 dLax).filter fun d =>
        decide (restaurantName d = str "X")).length :=
  c5_no_cap (List.replicate 11 dLax) _ (by decide)

/-! ### Claim C6 (category mapping) -/

/-- Counterexample to C6: the text "chicken fisk" contains "fisk" but maps to
the meat category, because the meat rule is checked first. -/
theorem c6_counterexample :
    containsStr (jsLower (str "chicken fisk")) (str "fisk") = true ∧
    mapCategory (str "chicken fisk") = str "Kött" ∧
    mapCategory (str "chicken fisk") ≠ str "Fisk" := by
  decide

/-- C6 as amended: the mapper is total into the fixed closed category set; the
rules are checked in priority order meat, fish, vegetarian, vegan, so a text
containing "fisk" maps to the fish category provided it contains none of the
meat keywords; and a text matching no rule maps to the catch-all — no item is
ever rejected for category ambiguity. -/
theorem c6_category_total (s : Str) :
    mapCategory s ∈ canonicalCategories ∧
    (containsStr (jsLower s) (str "kött") = false →
      containsStr (jsLower s) (str "beef") = false →
      containsStr (jsLower s) (str "chicken") = false →
      containsStr (jsLower s) (str "pork") = false →
      containsStr (jsLower s) (str "fisk") = true →
      mapCategory s = str "Fisk") ∧
    (containsStr (jsLower s) (str "kött") = false →
      containsStr (jsLower s) (str "beef") = false →
      containsStr (jsLower s) (str "chicken") = false →
      containsStr (jsLower s) (str "pork") = false →
      containsStr (jsLower s) (str "fisk") = false →
      containsStr (jsLower s) (str "fish") = false →
      containsStr (jsLower s) (str "seafood") = false →
      containsStr (jsLower s) (str "vegetarisk") = false →
      containsStr (jsLower s) (str "vegetarian") = false →
      containsStr (jsLower s) (str "vegansk") = false →
      containsStr (jsLower s) (str "vegan") = false →
      mapCategory s = str "Övrigt") := by
  refine ⟨?_, ?_, ?_⟩
  · unfold mapCategory
    dsimp only
    split
    · decide
    · split
      · decide
      · split
        · decide
        · split <;> decide
  · intro h1 h2 h3 h4 h5
    unfold mapCategory
    dsimp only
    rw [h1, h2, h3, h4, h5]
    simp
  · intro h1 h2 h3 h4 h5 h6 h7 h8 h9 h10 h11
    unfold mapCategory
    dsimp only
    rw [h1, h2, h3, h4, h5, h6, h7, h8, h9, h10, h11]
    simp

/-- Witness for the amended C6 at concrete category texts. -/
theorem c6_category_total_witness :
    mapCategory (str "fisk") ∈ canonicalCategories ∧
    mapCategory (str "fisk") = str "Fisk" ∧
    mapCategory (str "pannkaka") = str "Övrigt" :=
  ⟨(c6_category_total (str "fisk")).1,
   (c6_category_total (str "fisk")).2.1 (by decide) (by decide) (by decide)
     (by decide) (by decide),
   (c6_category_total (str "pannkaka")).2.2 (by decide) (by decide) (by decide)
     (by decide) (by decide) (by decide) (by decide) (by decide) (by decide)
     (by decide) (by decide)⟩

/-! ### Claim C7 (idempotence) -/

/-- Counterexample to C7: the item `mStale` has an in-band price and a
canonical category, yet re-applying the transform changes it, because the
derived fields (health score, diet tags, allergens) are recomputed. -/
theorem c7_counterexample :
    priceOk mStale.price = true ∧
    mStale.category ∈ canonicalCategories ∧
    renormalize [mStale] ≠ [mStale] := by
  refine ⟨by decide, by decide, by decide⟩

/-- Re-applying the transform fixes an item whose name is non-empty, whose
price is null or in band, whose category is canonical and whose derived
fields are consistent with their generators. -/
theorem retransform_eq (m : MenuItem) (hname : m.name ≠ [])
    (hp : m.price = none ∨ ∃ v : Int, m.price = some v ∧ 40 ≤ v ∧ v ≤ 200)
    (hc : m.category ∈ canonicalCategories)
    (hh : m.health_score = generateHealthScore (dishOfMenuItem m))
    (ht : m.diet_tags = generateDietTags (dishOfMenuItem m))
    (ha : m.allergens = generateAllergens (dishOfMenuItem m)) :
    transformDish (dishOfMenuItem m) = m := by
  have hdisj : m.category = str "Kött" ∨ m.category = str "Fisk" ∨
      m.category = str "Vegetarisk" ∨ m.category = str "Vegansk" ∨
      m.category = str "Övrigt" := by
    simpa [canonicalCategories] using hc
  have hcm : mapCategory m.category = m.category := by
    rcases hdisj with h | h | h | h | h <;> rw [h] <;> decide
  have hcne : m.category ≠ [] := by
    rcases hdisj with h | h | h | h | h <;> rw [h] <;> decide
  apply MenuItem.ext
  · simp [transformDish, dishOfMenuItem, orFalsy, hname]
  · by_cases hd : m.description = [] <;>
      simp [transformDish, dishOfMenuItem, orFalsy, hd]
  · rcases hp with h | ⟨v, hv, h40, h200⟩
    · simp [transformDish, dishOfMenuItem, jsOrNullInt, h]
    · have hv0 : ¬ v = 0 := by omega
      simp [transformDish, dishOfMenuItem, jsOrNullInt, hv, hv0]
  · simp [transformDish, dishOfMenuItem, orFalsy, hcne, hcm]
  · exact hh.symm
  · exact ht.symm
  · exact ha.symm

/-- C7 as amended: re-normalization is the identity on item lists whose
prices are null or in band and whose categories are canonical, provided
additionally that names are non-empty and the derived fields equal their
generated values (the stored derived fields are recomputed on every pass);
in particular the category mapper fixes every canonical category. -/
theorem c7_renormalize_id (L : List MenuItem)
    (h : ∀ m ∈ L, m.name ≠ [] ∧
      (m.price = none ∨ ∃ v : Int, m.price = some v ∧ 40 ≤ v ∧ v ≤ 200) ∧
      m.category ∈ canonicalCategories ∧
      m.health_score = generateHealthScore (dishOfMenuItem m) ∧
      m.diet_tags = generateDietTags (dishOfMenuItem m) ∧
      m.allergens = generateAllergens (dishOfMenuItem m)) :
    renormalize L = L ∧ ∀ c ∈ canonicalCategories, mapCategory c = c := by
  constructor
  · induction L with
    | nil => rfl
    | cons m rest ih =>
      have hm := h m (List.mem_cons_self m rest)
      have hrest := ih fun x hx => h x (List.mem_cons_of_mem m hx)
      unfold renormalize at hrest ⊢
      simp only [List.map_cons]
      rw [retransform_eq m hm.1 hm.2.1 hm.2.2.1 hm.2.2.2.1 hm.2.2.2.2.1
        hm.2.2.2.2.2, hrest]
  · decide

/-- Witness for the amended C7: the consistent item `mFixed` is a fixed point
of re-normalization. -/
theorem c7_renormalize_id_witness :
    renormalize [mFixed] = [mFixed] ∧ mapCategory (str "Kött") = str "Kött" := by
  have h := c7_renormalize_id [mFixed] ?_
  · exact ⟨h.1, h.2 (str "Kött") (by decide)⟩
  · intro m hm
    rw [List.mem_singleton] at hm
    subst hm
    exact ⟨by decide, Or.inr ⟨100, rfl, by norm_num, by norm_num⟩, by decide,
      by decide, by decide, by decide⟩

/-! ### Claim C8 (id uniqueness) -/

/-- Counterexample to C8: the distinct restaurant names "A B" and "A.B" both
slug to "a-b", so the produced snapshot carries two restaurants with the same
id. -/
theorem c8_counterexample :
    ((buildRestaurants [dRestA, dRestB]).map fun r => r.id) =
      [str "a-b", str "a-b"] ∧
    ¬ (((buildRestaurants [dRestA, dRestB]).map fun r => r.id).Nodup) ∧
    dRestA.restaurant ≠ dRestB.restaurant := by
  refine ⟨by decide, by decide, by decide⟩

/-- C8 as amended: the produced restaurant names are pairwise distinct and
each id is the (non-injective) slug of its name — ids are pairwise distinct
exactly when no two distinct names share a slug. -/
theorem c8_names_distinct_ids_slug (ds : List Dish) :
    (((buildRestaurants ds).map fun r => r.name)).Nodup ∧
    ∀ r ∈ buildRestaurants ds, r.id = slugId r.name :=
  ⟨buildRestaurants_names_nodup ds, ids_foldl ds [] (by simp)⟩

/-- Witness for the amended C8 at a concrete input. -/
theorem c8_names_distinct_ids_slug_witness :
    (((buildRestaurants [dRestA]).map fun r => r.name)).Nodup ∧
    ({ id := str "a-b", name := str "A B", address := str "Sundbyberg", url := str "#"
       menu_items := [transformDish dRestA], walking_time := 5 } :
      Restaurant).id = slugId (str "A B") :=
  ⟨(c8_names_distinct_ids_slug [dRestA]).1,
   (c8_names_distinct_ids_slug [dRestA]).2 _ (by decide)⟩

/-! ### Claim C10 (health score bounds) -/

/-- C10: for every dish input, with any combination of missing name,
description or category fields, the generated health score is an integer
between 0 and 100 inclusive. -/
theorem c10_health_score_bounds (d : Dish) :
    0 ≤ generateHealthScore d ∧ generateHealthScore d ≤ 100 := by
  unfold generateHealthScore
  refine ⟨le_max_left 0 _, ?_⟩
  exact max_le (by norm_num) (min_le_left 100 _)

/-! ### Claim C9 (GET error handling) -/

/-- C9: the handler is total over its read outcomes and always produces a
well-formed snapshot (its restaurant names are duplicate-free); when the
combined read succeeds it serves its dishes; when it fails the flat dishes
file is served with recomputed metadata; when both reads fail the snapshot has
zero dishes, zero restaurants and an empty restaurant list. -/
theorem c9_get_total (combined : Option CombinedData) (flat : Option (List Dish))
    (c : CombinedData) (ds : List Dish) (nowIso today : Str) :
    ((GET combined flat nowIso today).restaurants.map fun r => r.name).Nodup ∧
    (GET (some c) flat nowIso today).restaurants = buildRestaurants (c.dishes.getD []) ∧
    GET none (some ds) nowIso today =
      { generated_at := some nowIso, date := today
        total_dishes := some ds.length
        total_restaurants := some (dedupOpt (ds.map Dish.restaurant)).length
        restaurants := buildRestaurants ds } ∧
    GET none none nowIso today =
      { generated_at := some nowIso, date := today, total_dishes := some 0
        total_restaurants := some 0, restaurants := [] } := by
  refine ⟨?_, rfl, rfl, rfl⟩
  have key : ∀ l : List Dish, ((buildRestaurants l).map fun r => r.name).Nodup := by
    intro l
    exact buildRestaurants_names_nodup l
  match combined with
  | some cc => exact key _
  | none =>
    match flat with
    | some dds => exact key _
    | none => simp [GET]

end IstLunch
